import Mathlib

/-!
Shallow embedding of the signaling/relay core of `src/server.js`
(WebRTC-Stream-NodeJS).

The server keeps a global `rooms` map from room id to `{ host, viewers }`
and reacts to four socket events: `join-room`, `signal`, `frame` and
`disconnect`.  Connection ids, room ids and roles are opaque strings at the
wire level, so they are modelled as `String`.  Signal/frame payloads are
never inspected by the server, so the model is parametric in the payload
type `P`.

The JavaScript `Map` is modelled as an association list with JS `Map`
semantics: `set` overwrites in place when the key is present and appends
otherwise, `get` returns the first (unique) matching entry, `forEach`
visits entries in insertion order and tolerates deletion of the entry
under iteration.
-/

namespace WebRTCStream

abbrev ConnId := String
abbrev RoomId := String

/-- A room record as created by `server.js`:
`rooms.set(roomId, { host: null, viewers: [] })`.
`host` is `null` or a socket id; `viewers` is a JS array of socket ids
(ordered, duplicates representable). -/
structure Room where
  host : Option ConnId
  viewers : List ConnId
deriving DecidableEq, Repr

/-- The registry `const rooms = new Map()`, as an insertion-ordered
association list. -/
abbrev Rooms := List (RoomId × Room)

/-- `rooms.get(roomId)` / `rooms.has(roomId)`: first entry with the key. -/
def lookupRoom : Rooms → RoomId → Option Room
  | [], _ => none
  | (k, v) :: rest, rid => if k = rid then some v else lookupRoom rest rid

/-- `rooms.set(roomId, room)`: overwrite in place if the key is present,
append otherwise (JS `Map.set` keeps insertion order on overwrite). -/
def setRoom : Rooms → RoomId → Room → Rooms
  | [], rid, r => [(rid, r)]
  | (k, v) :: rest, rid, r =>
    if k = rid then (k, r) :: rest else (k, v) :: setRoom rest rid r

/-- The data object of a `frame` event.  The clients send `{ to, data }`;
the server reads only `data.to` (field `toId` here) and forwards the whole object verbatim. -/
structure FrameData (P : Type) where
  toId : Option ConnId
  data : P
deriving DecidableEq, Repr

/-- Outbound envelopes the server emits.  Field names follow the wire
payloads of `server.js` (`from` is rendered as `src`).  The constructor
`frameSpec` is NOT produced by the code; it is modelled from the spec:
§4.3 claims the frame path forwards `Frame{from=self, payload}`, and this
constructor renders that claimed shape so it can be compared with the
`frame` envelope the code actually emits. -/
inductive Envelope (P : Type) where
  | joined (role : String) (roomId : RoomId)
  | hostReady
  | viewerJoined (viewerId : ConnId)
  | signalEnv (src : ConnId) (payload : P)
  | frameEnv (data : FrameData P)
  | frameSpec (src : ConnId) (payload : P)
  | hostDisconnected
deriving DecidableEq, Repr

/-- A single outbound send.  `toConn c` is `io.to(c).emit(...)` /
`socket.emit(...)` (addressed to one socket id); `toRoom rid ex` is
`socket.to(rid).emit(...)` (broadcast to the socket.io room `rid`
excluding the sender `ex`). -/
inductive Send (P : Type) where
  | toConn (target : ConnId) (env : Envelope P)
  | toRoom (roomId : RoomId) (excluding : ConnId) (env : Envelope P)
deriving DecidableEq, Repr

/-- The inbound events `server.js` handles, each tagged with the socket id
of the sender (`socket.id`). -/
inductive Event (P : Type) where
  | joinRoom (sender : ConnId) (roomId : RoomId) (role : String)
  | signal (sender : ConnId) (roomId : RoomId) (target : ConnId) (payload : P)
  | frame (sender : ConnId) (data : FrameData P)
  | disconnect (sender : ConnId)

/-- JS truthiness of `data.to` (a string or absent): `undefined`/`null`
and the empty string are falsy. -/
def truthyStr : Option String → Bool
  | none => false
  | some s => !(s = "")

/-- The `join-room` handler.  Mirrors `server.js` lines 20-46:
create the room if absent, then either overwrite `room.host` (host branch)
or `room.viewers.push(socket.id)` (viewer branch, taken for every role
other than the literal string "host"). -/
def joinStep (sender : ConnId) (roomId : RoomId) (role : String)
    (rooms : Rooms) : Rooms × List (Send P) :=
  let rooms1 :=
    if (lookupRoom rooms roomId).isSome then rooms
    else setRoom rooms roomId ⟨none, []⟩
  let room := (lookupRoom rooms1 roomId).getD ⟨none, []⟩
  if role = "host" then
    (setRoom rooms1 roomId ⟨some sender, room.viewers⟩,
     [Send.toConn sender (Envelope.joined "host" roomId),
      Send.toRoom roomId sender Envelope.hostReady])
  else
    (setRoom rooms1 roomId ⟨room.host, room.viewers ++ [sender]⟩,
     Send.toConn sender (Envelope.joined "viewer" roomId) ::
       (match room.host with
        | some h => [Send.toConn h (Envelope.viewerJoined sender)]
        | none => []))

/-- The mutation the `disconnect` handler applies to a single room:
`if (room.host === socket.id) room.host = null` followed by
`room.viewers = room.viewers.filter(id => id !== socket.id)`. -/
def disconnectRoomUpdate (sender : ConnId) (room : Room) : Room :=
  ⟨if room.host = some sender then none else room.host,
   room.viewers.filter (fun c => ¬(c = sender))⟩

/-- A room in the state the registry must garbage-collect:
`host = null` and empty `viewers`.  This is the `disconnect` handler's
deletion test `!room.host && room.viewers.length === 0` (socket ids are
non-empty strings, so `!room.host` is exactly `host = null`). -/
def Room.isEmptyRoom (r : Room) : Bool :=
  r.host = none ∧ r.viewers = []

/-- The `disconnect` handler body, `server.js` lines 62-73: for each room
in insertion order, clear the host slot (broadcasting `host-disconnected`
when the leaver was the host), filter the leaver out of `viewers`, and
delete the room when it ends with no host and no viewers. -/
def disconnectRooms (sender : ConnId) :
    Rooms → Rooms × List (Send P)
  | [] => ([], [])
  | (rid, room) :: rest =>
    let room' := disconnectRoomUpdate sender room
    let here : List (Send P) :=
      if room.host = some sender
      then [Send.toRoom rid sender Envelope.hostDisconnected]
      else []
    let res := disconnectRooms sender rest
    (if room'.isEmptyRoom then res.1 else (rid, room') :: res.1,
     here ++ res.2)

/-- One step of the server: dispatch on the event exactly as the handlers
in `server.js` do, returning the new registry and the list of sends in
emission order.
- `signal` (lines 48-50): `io.to(to).emit('signal', { from: socket.id, signal })`,
  unconditionally, with no registry access.
- `frame` (lines 53-57): `if (data.to) io.to(data.to).emit('frame', data)`,
  forwarding the data object verbatim, with no registry access. -/
def step (rooms : Rooms) : Event P → Rooms × List (Send P)
  | Event.joinRoom sender roomId role => joinStep sender roomId role rooms
  | Event.signal sender _roomId target payload =>
    (rooms, [Send.toConn target (Envelope.signalEnv sender payload)])
  | Event.frame _sender data =>
    (rooms,
     match data.toId with
     | some t => if t = "" then [] else [Send.toConn t (Envelope.frameEnv data)]
     | none => [])
  | Event.disconnect sender => disconnectRooms sender rooms

/-- Registry states reachable from the empty registry at process start by
any sequence of handled events (with arbitrary payload types). -/
inductive Reachable : Rooms → Prop where
  | init : Reachable []
  | next {r : Rooms} {P : Type} (e : Event P) :
      Reachable r → Reachable (step r e).1

/-- Whether any room of the registry still references the connection id
`c`, as host or as a viewer entry. -/
def refsConn (rooms : Rooms) (c : ConnId) : Bool :=
  rooms.any (fun p => p.2.host = some c ∨ c ∈ p.2.viewers)

/-- No room of the registry is in the must-be-deleted empty state. -/
def noEmptyRoom (rooms : Rooms) : Bool :=
  rooms.all (fun p => !p.2.isEmptyRoom)

/-- `c` is currently a member (host or viewer) of room `rid`. -/
def memberOf (rooms : Rooms) (c : ConnId) (rid : RoomId) : Bool :=
  match lookupRoom rooms rid with
  | some room => room.host = some c ∨ c ∈ room.viewers
  | none => false

section Lemmas

theorem lookupRoom_setRoom_self (rooms : Rooms) (rid : RoomId) (r : Room) :
    lookupRoom (setRoom rooms rid r) rid = some r := by
  induction rooms with
  | nil => simp [setRoom, lookupRoom]
  | cons p rest ih =>
    obtain ⟨k, v⟩ := p
    by_cases h : k = rid <;> simp [setRoom, lookupRoom, h, ih]

theorem lookupRoom_setRoom_ne (rooms : Rooms) (rid rid' : RoomId) (r : Room)
    (h : rid' ≠ rid) :
    lookupRoom (setRoom rooms rid r) rid' = lookupRoom rooms rid' := by
  have h2 : ¬(rid = rid') := fun hh => h hh.symm
  induction rooms with
  | nil => simp [setRoom, lookupRoom, h2]
  | cons p rest ih =>
    obtain ⟨k, v⟩ := p
    by_cases hk : k = rid
    · subst hk
      simp [setRoom, lookupRoom, h2]
    · by_cases hk' : k = rid' <;> simp [setRoom, lookupRoom, hk, hk', h, ih]

theorem mem_setRoom (rooms : Rooms) (rid : RoomId) (r : Room)
    (p : RoomId × Room) (hp : p ∈ setRoom rooms rid r) :
    p.2 = r ∨ p ∈ rooms := by
  induction rooms with
  | nil =>
    simp [setRoom] at hp
    subst hp; left; rfl
  | cons q rest ih =>
    obtain ⟨k, v⟩ := q
    by_cases hk : k = rid
    · simp [setRoom, hk] at hp
      rcases hp with hp | hp
      · subst hp; left; rfl
      · right; exact List.mem_cons_of_mem _ hp
    · simp [setRoom, hk] at hp
      rcases hp with hp | hp
      · right; simp [hp]
      · rcases ih hp with h | h
        · left; exact h
        · right; exact List.mem_cons_of_mem _ h

/-- In `joinStep`, after the `if (!rooms.has(roomId)) rooms.set(...)` line,
looking up `roomId` yields the pre-existing room, or the fresh
`{host: null, viewers: []}` when the room was absent. -/
theorem lookupRoom_ensure (rooms : Rooms) (rid : RoomId) :
    lookupRoom
      (if (lookupRoom rooms rid).isSome then rooms
       else setRoom rooms rid ⟨none, []⟩) rid
      = some ((lookupRoom rooms rid).getD ⟨none, []⟩) := by
  cases h : lookupRoom rooms rid with
  | some r => simp [h]
  | none => simp [h, lookupRoom_setRoom_self]

theorem lookupRoom_ensure_ne (rooms : Rooms) (rid rid' : RoomId)
    (h : rid' ≠ rid) :
    lookupRoom
      (if (lookupRoom rooms rid).isSome then rooms
       else setRoom rooms rid ⟨none, []⟩) rid'
      = lookupRoom rooms rid' := by
  cases h' : lookupRoom rooms rid with
  | some r => simp
  | none => simp [lookupRoom_setRoom_ne _ _ _ _ h]

/-- What a viewer join leaves at the joined room's key: the previous (or
fresh) room with the joining id appended to `viewers` via
`room.viewers.push(socket.id)`, the host slot untouched. -/
theorem join_viewer_lookup (P : Type) (rooms : Rooms) (sender : ConnId)
    (rid : RoomId) :
    lookupRoom (step (P := P) rooms (Event.joinRoom sender rid "viewer")).1 rid
      = some ⟨((lookupRoom rooms rid).getD ⟨none, []⟩).host,
              ((lookupRoom rooms rid).getD ⟨none, []⟩).viewers ++ [sender]⟩ := by
  have h1 := lookupRoom_ensure rooms rid
  have hrole : ¬(("viewer" : String) = "host") := by decide
  simp only [step, joinStep, if_neg hrole]
  rw [lookupRoom_setRoom_self, h1]
  simp

theorem filter_ne_of_not_mem (l : List ConnId) (sender : ConnId)
    (h : sender ∉ l) : l.filter (fun c => ¬(c = sender)) = l := by
  induction l with
  | nil => rfl
  | cons a rest ih =>
    have ha : ¬(a = sender) := fun hh => h (by simp [hh])
    have hr : sender ∉ rest := fun hh => h (List.mem_cons_of_mem _ hh)
    have hpa : (decide ¬(a = sender)) = true := by simp [ha]
    rw [List.filter_cons, if_pos hpa, ih hr]

theorem disconnectRoomUpdate_host_ne (sender : ConnId) (room : Room) :
    (disconnectRoomUpdate sender room).host ≠ some sender := by
  simp only [disconnectRoomUpdate]
  by_cases hdep : room.host = some sender <;> simp [hdep]

theorem disconnectRoomUpdate_not_mem (sender : ConnId) (room : Room) :
    sender ∉ (disconnectRoomUpdate sender room).viewers := by
  simp [disconnectRoomUpdate]

theorem disconnectRoomUpdate_of_not_refs (sender : ConnId) (room : Room)
    (h1 : ¬(room.host = some sender)) (h2 : sender ∉ room.viewers) :
    disconnectRoomUpdate sender room = room := by
  simp only [disconnectRoomUpdate, if_neg h1,
    filter_ne_of_not_mem room.viewers sender h2]

/-- Every room entry surviving the `disconnect` sweep for `sender` no
longer references `sender` and is not in the empty (to-be-deleted) state. -/
theorem disconnectRooms_mem (P : Type) (sender : ConnId) (rooms : Rooms)
    (p : RoomId × Room) (hp : p ∈ (disconnectRooms (P := P) sender rooms).1) :
    p.2.host ≠ some sender ∧ sender ∉ p.2.viewers ∧ p.2.isEmptyRoom = false := by
  induction rooms with
  | nil => simp [disconnectRooms] at hp
  | cons q rest ih =>
    obtain ⟨rid, room⟩ := q
    simp only [disconnectRooms] at hp
    by_cases hemp : (disconnectRoomUpdate sender room).isEmptyRoom = true
    · rw [if_pos hemp] at hp
      exact ih hp
    · rw [if_neg hemp] at hp
      rcases List.mem_cons.mp hp with hp | hp
      · subst hp
        exact ⟨disconnectRoomUpdate_host_ne sender room,
               disconnectRoomUpdate_not_mem sender room,
               by simpa using hemp⟩
      · exact ih hp

theorem setRoom_setRoom (rooms : Rooms) (rid : RoomId) (r r' : Room) :
    setRoom (setRoom rooms rid r) rid r' = setRoom rooms rid r' := by
  induction rooms with
  | nil => simp [setRoom]
  | cons p rest ih =>
    obtain ⟨k, v⟩ := p
    by_cases hk : k = rid <;> simp [setRoom, hk, ih]

/-- Normal form of the registry after a `join-room` event: the
create-if-absent step followed by the in-place mutation collapses to a
single `setRoom` of the updated room. -/
theorem joinStep_fst (P : Type) (sender : ConnId) (rid : RoomId)
    (role : String) (rooms : Rooms) :
    (joinStep (P := P) sender rid role rooms).1
      = setRoom rooms rid
          (if role = "host" then
            ⟨some sender, ((lookupRoom rooms rid).getD ⟨none, []⟩).viewers⟩
           else
            ⟨((lookupRoom rooms rid).getD ⟨none, []⟩).host,
             ((lookupRoom rooms rid).getD ⟨none, []⟩).viewers ++ [sender]⟩) := by
  simp only [joinStep]
  cases hlook : lookupRoom rooms rid with
  | some r => by_cases hrole : role = "host" <;> simp [hlook, hrole]
  | none =>
    by_cases hrole : role = "host" <;>
      simp [hlook, hrole, lookupRoom_setRoom_self, setRoom_setRoom]

theorem noEmptyRoom_iff (rooms : Rooms) :
    noEmptyRoom rooms = true ↔ ∀ p ∈ rooms, p.2.isEmptyRoom = false := by
  simp [noEmptyRoom, List.all_eq_true]

theorem noEmptyRoom_setRoom (rooms : Rooms) (rid : RoomId) (r : Room)
    (h : noEmptyRoom rooms = true) (hr : r.isEmptyRoom = false) :
    noEmptyRoom (setRoom rooms rid r) = true := by
  rw [noEmptyRoom_iff] at h ⊢
  intro p hp
  rcases mem_setRoom rooms rid r p hp with h2 | h2
  · rw [h2]; exact hr
  · exact h p h2

/-- The eager garbage-collection invariant is preserved by every event. -/
theorem noEmptyRoom_step (P : Type) (rooms : Rooms) (e : Event P)
    (h : noEmptyRoom rooms = true) : noEmptyRoom (step rooms e).1 = true := by
  cases e with
  | joinRoom sender rid role =>
    rw [show (step (P := P) rooms (Event.joinRoom sender rid role)).1 = _ from
      joinStep_fst P sender rid role rooms]
    apply noEmptyRoom_setRoom _ _ _ h
    by_cases hrole : role = "host" <;> simp [hrole, Room.isEmptyRoom]
  | signal sender roomId target payload => exact h
  | frame sender data => exact h
  | disconnect sender =>
    rw [noEmptyRoom_iff]
    intro p hp
    exact (disconnectRooms_mem P sender rooms p hp).2.2

theorem reachable_noEmptyRoom {rooms : Rooms} (h : Reachable rooms) :
    noEmptyRoom rooms = true := by
  induction h with
  | init => rfl
  | next e _ ih => exact noEmptyRoom_step _ _ e ih

/-- The key list of the registry, in insertion order. -/
def keys (rooms : Rooms) : List RoomId := rooms.map Prod.fst

/-- Well-formedness of the `Map` model: keys are pairwise distinct. -/
def keysNodup (rooms : Rooms) : Prop := (keys rooms).Nodup

theorem lookupRoom_eq_none_iff (rooms : Rooms) (rid : RoomId) :
    lookupRoom rooms rid = none ↔ rid ∉ keys rooms := by
  induction rooms with
  | nil => simp [lookupRoom, keys]
  | cons p rest ih =>
    obtain ⟨k, v⟩ := p
    by_cases hk : k = rid
    · subst hk
      simp [lookupRoom, keys]
    · have hk2 : ¬(rid = k) := fun hh => hk hh.symm
      simp [lookupRoom, keys, hk, hk2, ih]

theorem keys_setRoom (rooms : Rooms) (rid : RoomId) (r : Room) :
    keys (setRoom rooms rid r)
      = if (lookupRoom rooms rid).isSome then keys rooms
        else keys rooms ++ [rid] := by
  induction rooms with
  | nil => simp [keys, setRoom, lookupRoom]
  | cons p rest ih =>
    obtain ⟨k, v⟩ := p
    by_cases hk : k = rid
    · subst hk
      simp [keys, setRoom, lookupRoom]
    · have hcons : keys (setRoom ((k, v) :: rest) rid r)
          = k :: keys (setRoom rest rid r) := by
        simp [keys, setRoom, hk]
      have hlk : lookupRoom ((k, v) :: rest) rid = lookupRoom rest rid := by
        simp [lookupRoom, hk]
      rw [hcons, ih, hlk]
      cases lookupRoom rest rid <;> simp [keys]

theorem keysNodup_setRoom (rooms : Rooms) (rid : RoomId) (r : Room)
    (h : keysNodup rooms) : keysNodup (setRoom rooms rid r) := by
  unfold keysNodup at h ⊢
  rw [keys_setRoom]
  cases hlook : lookupRoom rooms rid with
  | some r' => simpa using h
  | none =>
    have hnm : rid ∉ keys rooms := (lookupRoom_eq_none_iff rooms rid).mp hlook
    simp [List.nodup_append, h, hnm]

theorem disconnectRooms_keys_sublist (P : Type) (sender : ConnId)
    (rooms : Rooms) :
    List.Sublist (keys (disconnectRooms (P := P) sender rooms).1)
      (keys rooms) := by
  induction rooms with
  | nil => simp [disconnectRooms, keys]
  | cons p rest ih =>
    obtain ⟨rid, room⟩ := p
    simp only [disconnectRooms]
    by_cases hemp : (disconnectRoomUpdate sender room).isEmptyRoom = true
    · rw [if_pos hemp]
      exact List.Sublist.cons _ ih
    · rw [if_neg hemp]
      exact List.Sublist.cons₂ _ ih

theorem keysNodup_step (P : Type) (rooms : Rooms) (e : Event P)
    (h : keysNodup rooms) : keysNodup (step rooms e).1 := by
  cases e with
  | joinRoom sender rid role =>
    rw [show (step (P := P) rooms (Event.joinRoom sender rid role)).1 = _ from
      joinStep_fst P sender rid role rooms]
    exact keysNodup_setRoom _ _ _ h
  | signal sender roomId target payload => exact h
  | frame sender data => exact h
  | disconnect sender =>
    exact List.Nodup.sublist (disconnectRooms_keys_sublist P sender rooms) h

theorem reachable_keysNodup {rooms : Rooms} (h : Reachable rooms) :
    keysNodup rooms := by
  induction h with
  | init => exact List.nodup_nil
  | next e _ ih => exact keysNodup_step _ _ e ih

/-- The `disconnect` sweep deletes the room of a sole viewer with no host:
its key is gone afterwards (given distinct keys, which hold in every
reachable state). -/
theorem disconnectRooms_lookup_deleted (P : Type) (sender : ConnId)
    (rooms : Rooms) (rid : RoomId) (hnd : keysNodup rooms)
    (h : lookupRoom rooms rid = some ⟨none, [sender]⟩) :
    lookupRoom (disconnectRooms (P := P) sender rooms).1 rid = none := by
  induction rooms with
  | nil => simp [lookupRoom] at h
  | cons p rest ih =>
    obtain ⟨k, room⟩ := p
    have hnd' : keysNodup rest := by
      unfold keysNodup keys at hnd ⊢
      exact (List.nodup_cons.mp hnd).2
    by_cases hk : k = rid
    · subst hk
      rw [show lookupRoom ((k, room) :: rest) k = some room by
        simp [lookupRoom]] at h
      obtain rfl : room = ⟨none, [sender]⟩ := Option.some.inj h
      have hkn : k ∉ keys rest := (List.nodup_cons.mp hnd).1
      have hrest : lookupRoom (disconnectRooms (P := P) sender rest).1 k = none := by
        rw [lookupRoom_eq_none_iff]
        intro hmem
        exact hkn ((disconnectRooms_keys_sublist P sender rest).subset hmem)
      have hemp :
          (disconnectRoomUpdate sender ⟨none, [sender]⟩).isEmptyRoom = true := by
        simp [disconnectRoomUpdate, Room.isEmptyRoom, List.filter_cons]
      simp only [disconnectRooms]
      rw [if_pos hemp]
      exact hrest
    · have h' : lookupRoom rest rid = some ⟨none, [sender]⟩ := by
        rw [show lookupRoom ((k, room) :: rest) rid = lookupRoom rest rid by
          simp [lookupRoom, hk]] at h
        exact h
      simp only [disconnectRooms]
      by_cases hemp : (disconnectRoomUpdate sender room).isEmptyRoom = true
      · rw [if_pos hemp]
        exact ih hnd' h'
      · rw [if_neg hemp]
        simp only [lookupRoom]
        rw [if_neg hk]
        exact ih hnd' h'

/-- `disconnect` for a connection the registry does not reference is a
no-op, when no room is in the (unreachable) empty state: nothing matches
the host test, the viewer filters keep every array intact, and no room
becomes empty. -/
theorem disconnectRooms_noop (P : Type) (sender : ConnId) (rooms : Rooms)
    (hne : noEmptyRoom rooms = true) (habs : refsConn rooms sender = false) :
    disconnectRooms (P := P) sender rooms = (rooms, []) := by
  induction rooms with
  | nil => rfl
  | cons p rest ih =>
    obtain ⟨rid, room⟩ := p
    have habs1 : ¬(room.host = some sender) ∧ sender ∉ room.viewers := by
      have := habs
      simp [refsConn, List.any_cons] at this
      exact ⟨this.1.1, this.1.2⟩
    have habs2 : refsConn rest sender = false := by
      have := habs
      simp [refsConn, List.any_cons] at this ⊢
      exact this.2
    have hne1 : room.isEmptyRoom = false :=
      (noEmptyRoom_iff _).mp hne (rid, room) (List.mem_cons_self _ _)
    have hne2 : noEmptyRoom rest = true := by
      rw [noEmptyRoom_iff] at hne ⊢
      intro q hq
      exact hne q (List.mem_cons_of_mem _ hq)
    simp only [disconnectRooms]
    rw [disconnectRoomUpdate_of_not_refs sender room habs1.1 habs1.2,
      ih hne2 habs2, if_neg habs1.1]
    rw [if_neg (show ¬(room.isEmptyRoom = true) by simp [hne1])]
    simp

end Lemmas

section ClaimTheorems

/-- C1: joining a room as host stores exactly the joining connection id in
the room's single `host` slot (an `Option`, so never two hosts), replacing
whatever host was there before and leaving the viewer list unchanged
(last-writer-wins, `room.host = socket.id` in `server.js`). -/
theorem c1_host_join_single_host (P : Type) (rooms : Rooms) (sender : ConnId)
    (rid : RoomId) :
    lookupRoom (step (P := P) rooms (Event.joinRoom sender rid "host")).1 rid
      = some ⟨some sender, ((lookupRoom rooms rid).getD ⟨none, []⟩).viewers⟩ := by
  have h1 := lookupRoom_ensure rooms rid
  simp only [step, joinStep, if_pos rfl, if_true, ite_true]
  rw [lookupRoom_setRoom_self, h1]
  simp

/-- C9: a `signal` event is relayed as a single send addressed to the
named target, carrying the envelope `{from: sender, signal: payload}` with
the payload passed through verbatim (the model is parametric in the
payload type, so the relay cannot inspect or modify it), and the registry
is untouched. -/
theorem c9_signal_relayed_verbatim (P : Type) (rooms : Rooms)
    (sender : ConnId) (roomId : RoomId) (target : ConnId) (payload : P) :
    step rooms (Event.signal sender roomId target payload)
      = (rooms, [Send.toConn target (Envelope.signalEnv sender payload)]) := rfl

/-- C2: after the `disconnect` handler runs for a connection id, no room
left in the registry references that id, neither in its `host` slot nor in
its `viewers` array. -/
theorem c2_disconnect_clears_references (P : Type) (rooms : Rooms)
    (sender : ConnId) :
    refsConn (step (P := P) rooms (Event.disconnect sender)).1 sender = false := by
  simp only [step, refsConn]
  rw [List.any_eq_false]
  intro p hp
  obtain ⟨h1, h2, _⟩ := disconnectRooms_mem P sender rooms p hp
  simp [h1, h2]

/-- C10: the `signal` handler performs no check on the sender's session
state: for a connection referenced nowhere in the registry (one that never
joined any room), a signal naming any target is forwarded to that target
exactly as it would be for a joined member, and the registry is left
unchanged.  (The hypothesis is never consulted: the handler reads nothing
but the event.) -/
theorem c10_signal_no_sender_check (P : Type) (rooms : Rooms)
    (sender : ConnId) (roomId : RoomId) (target : ConnId) (payload : P)
    (_hunjoined : refsConn rooms sender = false) :
    step rooms (Event.signal sender roomId target payload)
      = (rooms, [Send.toConn target (Envelope.signalEnv sender payload)]) := rfl

theorem c10_signal_no_sender_check_witness :
    refsConn [] "a" = false ∧
      step ([] : Rooms) (Event.signal "a" "r1" "b" (0 : Nat))
        = ([], [Send.toConn "b" (Envelope.signalEnv "a" (0 : Nat))]) :=
  ⟨by decide, c10_signal_no_sender_check Nat [] "a" "r1" "b" 0 (by decide)⟩

/-- The reachable two-room registry used against the crosstalk claim:
"A" joined room "r1" as viewer, "B" joined room "r2" as viewer. -/
def crossState : Rooms :=
  (step ((step ([] : Rooms) (Event.joinRoom (P := Unit) "A" "r1" "viewer")).1)
    (Event.joinRoom (P := Unit) "B" "r2" "viewer")).1

/-- C6 counterexample: in the reachable registry where "A" is a member of
room "r1" and "B" of the distinct room "r2", a signal sent by "A" is
delivered to "B" — a member of a different room — because the relay
forwards to whatever `to` id the sender names.  Crosstalk between rooms is
possible, falsifying the claim. -/
theorem c6_counterexample :
    Reachable crossState ∧
      memberOf crossState "A" "r1" = true ∧
      memberOf crossState "B" "r2" = true ∧
      ("r1" : RoomId) ≠ "r2" ∧
      (step crossState (Event.signal "A" "r1" "B" "x")).2
        = [Send.toConn "B" (Envelope.signalEnv "A" "x")] :=
  ⟨Reachable.next _ (Reachable.next _ Reachable.init),
   by decide, by decide, by decide, rfl⟩

/-- C6 amended: signal and frame routing is decided by the event's `to`
field alone — the handlers never read the registry, so the sends are
identical in every registry state and delivery is not confined to the
sender's room (registry states are also left unchanged). -/
theorem c6_relay_ignores_registry (P : Type) (rooms rooms' : Rooms)
    (sender : ConnId) (roomId : RoomId) (target : ConnId) (payload : P)
    (data : FrameData P) :
    (step rooms (Event.signal sender roomId target payload)).2
        = (step rooms' (Event.signal sender roomId target payload)).2 ∧
      (step rooms (Event.frame sender data)).2
        = (step rooms' (Event.frame sender data)).2 ∧
      (step rooms (Event.signal sender roomId target payload)).1 = rooms ∧
      (step rooms (Event.frame sender data)).1 = rooms :=
  ⟨rfl, rfl, rfl, rfl⟩

/-- The concrete frame data object of the C7 counterexample. -/
def frameDataEx : FrameData String := ⟨some "B", "x"⟩

/-- C7 counterexample: the frame handler emits the sender's data object
itself.  At the concrete input, the delivered envelope is the raw data
`{to: "B", data: "x"}`; it is identical for two distinct senders, so it
cannot carry the sender's id, and it differs from the spec-shaped
`Frame{from, payload}` envelope. -/
theorem c7_counterexample :
    (step ([] : Rooms) (Event.frame "A" frameDataEx)).2
        = [Send.toConn "B" (Envelope.frameEnv frameDataEx)] ∧
      (step ([] : Rooms) (Event.frame "A" frameDataEx)).2
        = (step ([] : Rooms) (Event.frame "Other" frameDataEx)).2 ∧
      ("A" : ConnId) ≠ "Other" ∧
      Envelope.frameEnv frameDataEx ≠ Envelope.frameSpec "A" "x" :=
  ⟨rfl, rfl, by decide, by decide⟩

/-- C7 amended: for every frame event whose data names a truthy target id,
the envelope delivered to that target is the sender's original data object
verbatim — its `to` field and payload, with no `from` field added — and
the registry is unchanged. -/
theorem c7_frame_forwards_data_verbatim (P : Type) (rooms : Rooms)
    (sender : ConnId) (data : FrameData P) (t : ConnId)
    (ht : data.toId = some t) (ht' : t ≠ "") :
    step rooms (Event.frame sender data)
      = (rooms, [Send.toConn t (Envelope.frameEnv data)]) := by
  simp only [step, ht]
  rw [if_neg ht']

theorem c7_frame_forwards_data_verbatim_witness :
    (frameDataEx.toId = some "B") ∧ ("B" : ConnId) ≠ "" ∧
      step ([] : Rooms) (Event.frame "A" frameDataEx)
        = ([], [Send.toConn "B" (Envelope.frameEnv frameDataEx)]) :=
  ⟨rfl, by decide,
   c7_frame_forwards_data_verbatim String [] "A" frameDataEx "B" rfl (by decide)⟩

/-- The reachable registry where connection "c1" joined room "r1" as host
and then joined the same room again as viewer. -/
def hostViewerState : Rooms :=
  (step ((step ([] : Rooms) (Event.joinRoom (P := Unit) "c1" "r1" "host")).1)
    (Event.joinRoom (P := Unit) "c1" "r1" "viewer")).1

/-- C3 counterexample: after the join-room sequence "c1" as host of "r1",
then "c1" as viewer of "r1", the registry holds room "r1" with
`host = "c1"` and `viewers = ["c1"]` — the same connection id is
simultaneously the host and a viewer of the room, falsifying the claimed
invariant. -/
theorem c3_counterexample :
    Reachable hostViewerState ∧
      lookupRoom hostViewerState "r1" = some ⟨some "c1", ["c1"]⟩ :=
  ⟨Reachable.next _ (Reachable.next _ Reachable.init), by decide⟩

/-- C3 amended: the join handler enforces no host/viewer exclusivity and
no viewer uniqueness: a viewer join always appends the joining id to the
room's `viewers` array — even when that id is the current host or already
a viewer — and a host join overwrites `host` without removing the id from
`viewers`. -/
theorem c3_join_enforces_no_exclusivity (P : Type) (rooms : Rooms)
    (sender : ConnId) (rid : RoomId) :
    lookupRoom (step (P := P) rooms (Event.joinRoom sender rid "viewer")).1 rid
        = some ⟨((lookupRoom rooms rid).getD ⟨none, []⟩).host,
                ((lookupRoom rooms rid).getD ⟨none, []⟩).viewers ++ [sender]⟩ ∧
      lookupRoom (step (P := P) rooms (Event.joinRoom sender rid "host")).1 rid
        = some ⟨some sender, ((lookupRoom rooms rid).getD ⟨none, []⟩).viewers⟩ := by
  refine ⟨join_viewer_lookup P rooms sender rid, ?_⟩
  have h1 := lookupRoom_ensure rooms rid
  simp only [step, joinStep, if_pos rfl, if_true, ite_true]
  rw [lookupRoom_setRoom_self, h1]
  simp

/-- The registry after "c1" joins "r1" as viewer once. -/
def oneViewerState : Rooms :=
  (step ([] : Rooms) (Event.joinRoom (P := Unit) "c1" "r1" "viewer")).1

/-- The registry after "c1" joins "r1" as viewer a second time. -/
def twoViewerState : Rooms :=
  (step oneViewerState (Event.joinRoom (P := Unit) "c1" "r1" "viewer")).1

/-- C4 counterexample: a second viewer join of "c1" to "r1" changes the
viewers array from `["c1"]` to `["c1", "c1"]` — the join is not
idempotent; a duplicate entry is appended. -/
theorem c4_counterexample :
    lookupRoom oneViewerState "r1" = some ⟨none, ["c1"]⟩ ∧
      lookupRoom twoViewerState "r1" = some ⟨none, ["c1", "c1"]⟩ ∧
      (["c1", "c1"] : List ConnId) ≠ ["c1"] :=
  ⟨by decide, by decide, by decide⟩

/-- C4 amended: a viewer join of a connection already present in the
room's viewers appends the id again (`push`), so the viewers array grows
by a duplicate entry rather than staying unchanged. -/
theorem c4_repeat_viewer_join_appends (P : Type) (rooms : Rooms)
    (sender : ConnId) (rid : RoomId) (room : Room)
    (hroom : lookupRoom rooms rid = some room)
    (_hmem : sender ∈ room.viewers) :
    lookupRoom (step (P := P) rooms (Event.joinRoom sender rid "viewer")).1 rid
        = some ⟨room.host, room.viewers ++ [sender]⟩ ∧
      room.viewers ++ [sender] ≠ room.viewers := by
  constructor
  · have h := join_viewer_lookup P rooms sender rid
    rw [hroom] at h
    exact h
  · intro hcontra
    have := congrArg List.length hcontra
    simp at this

theorem c4_repeat_viewer_join_appends_witness :
    lookupRoom [("r1", (⟨none, ["c1"]⟩ : Room))] "r1" = some ⟨none, ["c1"]⟩ ∧
      ("c1" : ConnId) ∈ (["c1"] : List ConnId) ∧
      lookupRoom (step (P := Unit) [("r1", (⟨none, ["c1"]⟩ : Room))]
          (Event.joinRoom "c1" "r1" "viewer")).1 "r1"
        = some ⟨none, ["c1", "c1"]⟩ ∧
      (["c1", "c1"] : List ConnId) ≠ ["c1"] := by
  refine ⟨by decide, by decide, ?_, ?_⟩
  · exact (c4_repeat_viewer_join_appends Unit [("r1", ⟨none, ["c1"]⟩)] "c1" "r1"
      ⟨none, ["c1"]⟩ (by decide) (by decide)).1
  · exact (c4_repeat_viewer_join_appends Unit [("r1", ⟨none, ["c1"]⟩)] "c1" "r1"
      ⟨none, ["c1"]⟩ (by decide) (by decide)).2

/-- C5: in every reachable registry state no room with no host and an
empty viewers array is present (the `disconnect` sweep deletes such rooms
the moment they arise, and joins always leave the touched room
non-empty); in particular, when the sole viewer of a room with no host
disconnects, that room id is deleted from the registry. -/
theorem c5_empty_rooms_never_persist :
    (∀ rooms : Rooms, Reachable rooms → noEmptyRoom rooms = true) ∧
      (∀ (P : Type) (rooms : Rooms) (rid : RoomId) (v : ConnId),
        Reachable rooms → lookupRoom rooms rid = some ⟨none, [v]⟩ →
        lookupRoom (step (P := P) rooms (Event.disconnect v)).1 rid = none) := by
  constructor
  · intro rooms h
    exact reachable_noEmptyRoom h
  · intro P rooms rid v hreach hlook
    exact disconnectRooms_lookup_deleted P v rooms rid
      (reachable_keysNodup hreach) hlook

theorem c5_empty_rooms_never_persist_witness :
    noEmptyRoom (step ([] : Rooms)
        (Event.joinRoom (P := Unit) "v" "r1" "viewer")).1 = true ∧
      lookupRoom (step (P := Unit)
          (step ([] : Rooms) (Event.joinRoom (P := Unit) "v" "r1" "viewer")).1
          (Event.disconnect "v")).1 "r1" = none :=
  ⟨c5_empty_rooms_never_persist.1 _ (Reachable.next _ Reachable.init),
   c5_empty_rooms_never_persist.2 Unit _ "r1" "v"
     (Reachable.next _ Reachable.init) (by decide)⟩

/-- C8: processing a disconnect for a connection id the registry no longer
references is a no-op on every reachable registry state: the registry is
returned unchanged and no send at all — in particular no repeated
`host-disconnected` broadcast — is emitted. -/
theorem c8_disconnect_absent_noop (P : Type) (rooms : Rooms)
    (sender : ConnId) (hreach : Reachable rooms)
    (habs : refsConn rooms sender = false) :
    step (P := P) rooms (Event.disconnect sender) = (rooms, []) :=
  disconnectRooms_noop P sender rooms (reachable_noEmptyRoom hreach) habs

theorem c8_disconnect_absent_noop_witness :
    refsConn oneViewerState "gone" = false ∧
      step (P := Unit) oneViewerState (Event.disconnect "gone")
        = (oneViewerState, []) :=
  ⟨by decide,
   c8_disconnect_absent_noop Unit oneViewerState "gone"
     (Reachable.next _ Reachable.init) (by decide)⟩

end ClaimTheorems

end WebRTCStream
